import Mathlib

/-!
# Verification of `extract_dataset_metadata.py`

A shallow embedding of the manifest-building pipeline in
`src/extract_dataset_metadata/extract_dataset_metadata.py`:

* `read_split_tables` — reads `train.csv`, `val.csv`, `test.csv` into a
  last-write-wins mapping from a normalized relative path to a
  `(split, rating)` pair;
* `audio_duration_ms` — computes a file's duration in milliseconds from the
  header that the chosen reader (`wave` for `.wav`, `soundfile` otherwise)
  reports;
* `build_manifest` — walks the audio tree, joins each audio file against the
  mapping and yields one record per matched file;
* `main` — the end-to-end run, including the effect on the output file.

Python floats are modelled as rationals (`ℚ`); Python exceptions are modelled
with `Except` / explicit error components.  CSV files are modelled at the
level the script consumes them (a header row plus structured data rows);
parsing raw CSV text is done by the `csv` standard library, outside this
repository.
-/

deriving instance DecidableEq for Except

namespace ExtractDatasetMetadata

/-! ## String helpers (Python `str` / `pathlib` operations) -/

/-- Python `str.strip()` with no argument: leading and trailing whitespace
removed. -/
def pyStrip (s : String) : String :=
  ⟨((s.data.dropWhile Char.isWhitespace).reverse.dropWhile
      Char.isWhitespace).reverse⟩

/-- Python `str.replace("\\", "/")`: every backslash becomes a forward
slash (a one-character pattern, so character-wise replacement). -/
def normSlashes (s : String) : String :=
  ⟨s.data.map fun c => if c = '\\' then '/' else c⟩

/-- Python `str.lower()` (the suffixes compared here are ASCII). -/
def pyLower (s : String) : String :=
  ⟨s.data.map Char.toLower⟩

/-- The last index of character `c` in `cs`, as Python `str.rfind` (but
`none` instead of `-1` when absent). -/
def rfindChar (cs : List Char) (c : Char) : Option Nat :=
  cs.enum.foldl (fun acc p => if p.2 = c then some p.1 else acc) none

/-- `pathlib.PurePath.suffix` of a file name: the substring from the last
dot onwards, provided that dot is neither the first nor the last character;
otherwise the empty string. -/
def pathSuffix (name : String) : String :=
  let cs := name.toList
  match rfindChar cs '.' with
  | some i => if 0 < i ∧ i < cs.length - 1 then String.mk (cs.drop i) else ""
  | none => ""

/-- A substring occurrence: `pat` occurs inside `s`. -/
def strContains (s pat : String) : Prop := ∃ a b, s = a ++ pat ++ b

/-! ## Python `float()` on decimal literals

The script calls the builtin `float` on the `mos` cell.  We model the
decimal-literal fragment of `float` (optional sign, digits, optional
fractional part), which covers the table values the spec describes;
a string outside this fragment is rejected (Python `ValueError`). -/

/-- Numeric value of a digit string, most significant first. -/
def digitsVal (cs : List Char) : ℕ :=
  cs.foldl (fun a c => 10 * a + (c.toNat - 48)) 0

/-- Python `float()` restricted to plain decimal literals: surrounding
whitespace stripped, optional sign, then `digits`, `digits.digits`,
`digits.` or `.digits`.  `none` models a `ValueError`.  The value
`±(intPart.fracPart)` is the exact rational
`±(intPart·10^k + fracPart) / 10^k` with `k` the fractional length. -/
def pyFloat (s : String) : Option ℚ :=
  let cs := (pyStrip s).data
  let (neg, body) : Bool × List Char :=
    match cs with
    | '-' :: r => (true, r)
    | '+' :: r => (false, r)
    | r => (false, r)
  let signed : ℤ → ℤ := fun n => if neg then -n else n
  match body.splitOn '.' with
  | [intPart] =>
      if intPart ≠ [] ∧ intPart.all Char.isDigit then
        some (mkRat (signed (digitsVal intPart)) 1)
      else none
  | [intPart, fracPart] =>
      if (intPart ≠ [] ∨ fracPart ≠ []) ∧ intPart.all Char.isDigit ∧
          fracPart.all Char.isDigit then
        some (mkRat
          (signed (digitsVal intPart * 10 ^ fracPart.length + digitsVal fracPart))
          (10 ^ fracPart.length))
      else none
  | _ => none

/-! ## Split tables (`read_split_tables`, lines 64–80) -/

/-- One data row of a split CSV, as `csv.DictReader` presents it, restricted
to the two columns the script reads; further columns are ignored by the
script.  The cells are raw strings. -/
structure CsvRow where
  stimuli : String
  mos : String
deriving DecidableEq, Repr

/-- A parsed CSV table: the header row's field names and the data rows. -/
structure CsvTable where
  fieldnames : List String
  rows : List CsvRow
deriving DecidableEq, Repr

/-- The split directory: for each of `train.csv`, `val.csv`, `test.csv`,
either the parsed table or `none` when the file does not exist. -/
structure SplitDir where
  train : Option CsvTable
  val : Option CsvTable
  test : Option CsvTable
deriving DecidableEq, Repr

/-- Errors raised by `read_split_tables`:  `fileNotFound` models
`FileNotFoundError` (line 69), `missingColumns` the `ValueError` for a bad
header (line 73), `mosNotFloat` the `ValueError` from `float(row["mos"])`
(line 78). -/
inductive ReadError where
  | fileNotFound (split_name : String)
  | missingColumns (split_name : String)
  | mosNotFloat (cell : String)
deriving DecidableEq, Repr

/-- The mapping built by `read_split_tables`.  A Python `dict` is modelled
as the list of key/value insertions in program order; `mapLookup` below
gives the dict's observable lookup (the latest insertion for a key wins,
exactly as `mapping[rel_path] = (split_name, rating)` overwrites). -/
abbrev SplitMap : Type := List (String × String × ℚ)

/-- `dict.__getitem__` / `in`: the value of the last insertion for key `k`. -/
def mapLookup (m : SplitMap) (k : String) : Option (String × ℚ) :=
  m.foldl (fun acc p => if p.1 = k then some p.2 else acc) none

/-- The normalized lookup key of a row:
`row["stimuli"].strip().replace("\\", "/")` (line 77). -/
def rowKey (row : CsvRow) : String :=
  normSlashes (pyStrip row.stimuli)

/-- The row loop at lines 76–79: each row in order, parse `mos` (raising on
the first non-numeric cell) and perform the dict insertion
`mapping[rel_path] = (split_name, rating)`. -/
def insertRows (split_name : String) (rows : List CsvRow) (m : SplitMap) :
    Except ReadError SplitMap :=
  match rows with
  | [] => .ok m
  | row :: rest =>
    match pyFloat row.mos with
    | none => .error (.mosNotFloat row.mos)
    | some rating => insertRows split_name rest (m ++ [(rowKey row, split_name, rating)])

/-- Processing of one split table (the body of the `for split_name` loop,
lines 67–79): fail if the file is absent, fail if the header lacks
`stimuli` or `mos`, otherwise insert one binding per row in order. -/
def readTable (split_name : String) (t? : Option CsvTable) (m : SplitMap) :
    Except ReadError SplitMap :=
  match t? with
  | none => .error (.fileNotFound split_name)
  | some t =>
    if "stimuli" ∈ t.fieldnames ∧ "mos" ∈ t.fieldnames then
      insertRows split_name t.rows m
    else .error (.missingColumns split_name)

/-- `read_split_tables` (lines 64–80): the three tables are processed in the
order `train`, `val`, `test`, all into one mapping; the first exception
aborts the loop. -/
def read_split_tables (d : SplitDir) : Except ReadError SplitMap :=
  match readTable "train" d.train [] with
  | .error e => .error e
  | .ok m =>
    match readTable "val" d.val m with
    | .error e => .error e
    | .ok m => readTable "test" d.test m

/-! ## Duration probe (`audio_duration_ms`, lines 43–58) -/

/-- What the header reader (the `wave` module for `.wav`, `soundfile`
otherwise) reports for a file: either a header with a frame count and a
sample rate, or a read failure (e.g. a corrupt container), modelling the
exception the reader raises. -/
inductive ProbeOutcome where
  | header (frames sampleRate : ℕ)
  | readFail
deriving DecidableEq, Repr

/-- The fixed tail of the `RuntimeError` message at lines 56–58. -/
def unsupportedTail : String :=
  "; install `pip install soundfile` or convert to WAV."

/-- The full `RuntimeError` message
`f"Cannot read {path.suffix}; install ..."` for a given suffix. -/
def unsupportedMsg (suffix : String) : String :=
  "Cannot read " ++ suffix ++ unsupportedTail

/-- Errors out of `audio_duration_ms`: `zeroDivision` models Python's
`ZeroDivisionError` from `frames * 1000.0 / sr` when the header's sample
rate is `0`; `readFailed` models an exception from the header reader
itself; `unsupportedFormat` models the `RuntimeError` raised at line 56
when `import soundfile` fails. -/
inductive ProbeError where
  | zeroDivision
  | readFailed
  | unsupportedFormat (msg : String)
deriving DecidableEq, Repr

/-- `audio_duration_ms` (lines 43–58).  `soundfileAvailable` is the
environment fact of whether `import soundfile` succeeds; `suffix` is
`path.suffix` of the probed file and `outcome` what the chosen header
reader reports.  The duration is `frames * 1000.0 / sr` (exact in `ℚ`);
division by a zero sample rate raises. -/
def audio_duration_ms (soundfileAvailable : Bool) (suffix : String)
    (outcome : ProbeOutcome) : Except ProbeError ℚ :=
  if pyLower suffix = ".wav" then
    match outcome with
    | .header frames sr =>
        if sr = 0 then .error .zeroDivision
        else .ok (mkRat (frames * 1000) sr)
    | .readFail => .error .readFailed
  else
    if soundfileAvailable then
      match outcome with
      | .header frames sr =>
          if sr = 0 then .error .zeroDivision
          else .ok (mkRat (frames * 1000) sr)
      | .readFail => .error .readFailed
    else
      .error (.unsupportedFormat (unsupportedMsg suffix))

/-! ## Manifest builder (`build_manifest`, lines 86–107) -/

/-- `AUDIO_EXTS` (line 37). -/
def AUDIO_EXTS : List String := [".wav", ".flac", ".mp3", ".m4a", ".ogg"]

/-- One filesystem entry yielded by `root.rglob("*")`: its path relative to
the resolved root as a nonempty segment list (last segment is the entry's
name), whether it is a regular file, and — for files — what the header
reader would report for it. -/
structure Entry where
  relSegs : List String
  isFile : Bool
  probe : ProbeOutcome
deriving DecidableEq, Repr

/-- The entry's name (`path.name`): its last path segment. -/
def Entry.fileName (e : Entry) : String := e.relSegs.getLastD ""

/-- `audio.suffix.lower()` (line 89). -/
def Entry.ext (e : Entry) : String := pyLower (pathSuffix e.fileName)

/-- The extension filter at line 89: keep exactly the regular files whose
lower-cased suffix is in `AUDIO_EXTS`. -/
def Entry.isAudioFile (e : Entry) : Bool :=
  AUDIO_EXTS.contains e.ext && e.isFile

/-- `str(audio.relative_to(root)).replace("\\", "/")` (line 92): the
segments joined with `/`, then backslashes normalized. -/
def Entry.relPath (e : Entry) : String :=
  normSlashes (String.intercalate "/" e.relSegs)

/-- `audio.parent.name` (line 98): the name of the immediate parent
directory; for a file directly under the root this is the resolved root's
own name. -/
def Entry.speakerId (rootName : String) (e : Entry) : String :=
  match e.relSegs.dropLast.getLast? with
  | some d => d
  | none => rootName

/-- The record yielded at lines 101–107. -/
structure ManifestRecord where
  file_path : String
  speaker_id : String
  duration_ms : ℚ
  split : String
  rating : ℚ
deriving DecidableEq, Repr

/-- The stderr warning printed at line 94 for an unmatched file. -/
def skipWarning (rel_path : String) : String :=
  "⚠️  " ++ rel_path ++ " not in split tables – skipped"

/-- The observable outcome of draining the `build_manifest` generator:
the records yielded (in order, up to the first probe failure), the stderr
warnings printed, the relative paths passed to `audio_duration_ms` (in
order), and the probe error that escaped the generator, if any.  When
`error = some err`, `records` are exactly the rows yielded before the
exception. -/
structure BuildResult where
  records : List ManifestRecord
  warnings : List String
  probed : List String
  error : Option ProbeError
deriving DecidableEq, Repr

/-- `build_manifest` (lines 86–107) over the entries in traversal order.
Non-audio entries are skipped (line 89); an entry missing from the mapping
prints a warning and is skipped (lines 93–95); otherwise the file is
probed, and a probe failure escapes the generator, ending the run. -/
def build_manifest (sa : Bool) (rootName : String) :
    List Entry → SplitMap → BuildResult
  | [], _ => ⟨[], [], [], none⟩
  | e :: rest, m =>
    if e.isAudioFile then
      match mapLookup m e.relPath with
      | none =>
        let r := build_manifest sa rootName rest m
        ⟨r.records, skipWarning e.relPath :: r.warnings, r.probed, r.error⟩
      | some (split, rating) =>
        match audio_duration_ms sa e.ext e.probe with
        | .error err => ⟨[], [], [e.relPath], some err⟩
        | .ok duration =>
          let r := build_manifest sa rootName rest m
          ⟨⟨e.relPath, e.speakerId rootName, duration, split, rating⟩ :: r.records,
           r.warnings, e.relPath :: r.probed, r.error⟩
    else build_manifest sa rootName rest m

/-! ## `main` (lines 113–130) -/

/-- The input of one run: the split directory, the resolved audio root's
name, the entries `rglob` yields below it, and whether `soundfile` is
importable. -/
structure RunInput where
  split_dir : SplitDir
  rootName : String
  entries : List Entry
  soundfileAvailable : Bool

/-- The final state of the `--out` path after a run: either untouched
(whatever was there before the run is still there) or opened for writing
and holding exactly the given records, one JSON line each. -/
inductive OutContent where
  | prev
  | written (records : List ManifestRecord)
deriving DecidableEq, Repr

/-- The observable outcome of `main`: the output file's state, whether the
process exited successfully, and the count in the final
`Wrote {n} entries` message when it was printed. -/
structure RunOutcome where
  out : OutContent
  exitSuccess : Bool
  wroteCount : Option ℕ
deriving DecidableEq, Repr

/-- `main` (lines 113–130): `read_split_tables` runs first, and any of its
exceptions aborts the run before `args.out` is opened (line 125) — so the
output path keeps its previous content.  Otherwise the output file is
truncated and the generator's rows are streamed into it; a probe error
escapes after the rows before it were written, and the process dies with a
traceback (nonzero exit). -/
def main (inp : RunInput) : RunOutcome :=
  match read_split_tables inp.split_dir with
  | .error _ => ⟨.prev, false, none⟩
  | .ok split_map =>
    let r := build_manifest inp.soundfileAvailable inp.rootName inp.entries split_map
    match r.error with
    | some _ => ⟨.written r.records, false, none⟩
    | none => ⟨.written r.records, true, some r.records.length⟩

/-! ## Derived views of the split tables -/

/-- The data rows of the three tables in processing order, each tagged with
the split name under which the reader processes it. -/
def taggedRows (t1 t2 t3 : CsvTable) : List (String × CsvRow) :=
  t1.rows.map (fun r => ("train", r)) ++ t2.rows.map (fun r => ("val", r)) ++
    t3.rows.map (fun r => ("test", r))

/-- The binding a tagged row inserts into the mapping, when its `mos`
cell parses. -/
def rowBinding (p : String × CsvRow) : Option (String × String × ℚ) :=
  (pyFloat p.2.mos).map fun r => (rowKey p.2, p.1, r)

/-- The insertions a tagged row list performs, in order. -/
def rowBindings (l : List (String × CsvRow)) : SplitMap :=
  l.filterMap rowBinding

/-! ## Lemmas about the mapping -/

lemma mapLookup_foldl (b : SplitMap) (k : String) (acc : Option (String × ℚ)) :
    b.foldl (fun acc p => if p.1 = k then some p.2 else acc) acc =
      match mapLookup b k with
      | some v => some v
      | none => acc := by
  induction b generalizing acc with
  | nil => simp [mapLookup]
  | cons p rest ih =>
    show List.foldl _ (if p.1 = k then some p.2 else acc) rest = _
    rw [ih]
    conv_rhs => rw [show mapLookup (p :: rest) k =
      List.foldl _ (if p.1 = k then some p.2 else none) rest from rfl, ih]
    cases mapLookup rest k <;> by_cases h : p.1 = k <;> simp [h]

lemma mapLookup_append (a b : SplitMap) (k : String) :
    mapLookup (a ++ b) k =
      match mapLookup b k with
      | some v => some v
      | none => mapLookup a k := by
  show List.foldl _ none (a ++ b) = _
  rw [List.foldl_append]
  exact mapLookup_foldl b k _

lemma mapLookup_mem {m : SplitMap} {k : String} {v : String × ℚ}
    (h : mapLookup m k = some v) : (k, v) ∈ m := by
  induction m with
  | nil => simp [mapLookup] at h
  | cons p rest ih =>
    have hc : mapLookup (p :: rest) k =
        match mapLookup rest k with
        | some w => some w
        | none => if p.1 = k then some p.2 else none := by
      show List.foldl _ (if p.1 = k then some p.2 else none) rest = _
      exact mapLookup_foldl rest k _
    rw [hc] at h
    cases hr : mapLookup rest k with
    | some w =>
      rw [hr] at h
      exact List.mem_cons_of_mem _ (ih (hr.trans h))
    | none =>
      rw [hr] at h
      by_cases hk : p.1 = k
      · rw [if_pos hk] at h
        cases h
        exact hk ▸ List.mem_cons_self p rest
      · rw [if_neg hk] at h
        cases h

lemma mapLookup_eq_none {m : SplitMap} {k : String}
    (h : ∀ p ∈ m, p.1 ≠ k) : mapLookup m k = none := by
  induction m with
  | nil => rfl
  | cons p rest ih =>
    have hc : mapLookup (p :: rest) k =
        match mapLookup rest k with
        | some w => some w
        | none => if p.1 = k then some p.2 else none := by
      show List.foldl _ (if p.1 = k then some p.2 else none) rest = _
      exact mapLookup_foldl rest k _
    rw [hc, ih fun q hq => h q (List.mem_cons_of_mem _ hq),
      if_neg (h p (List.mem_cons_self p rest))]

/-! ## Lemmas about `read_split_tables` -/

lemma insertRows_ok {sn : String} {rows : List CsvRow} {m0 m1 : SplitMap}
    (h : insertRows sn rows m0 = .ok m1) :
    m1 = m0 ++ rowBindings (rows.map fun r => (sn, r)) := by
  induction rows generalizing m0 with
  | nil =>
    simp only [insertRows] at h
    cases h
    simp [rowBindings]
  | cons row rest ih =>
    simp only [insertRows] at h
    cases hp : pyFloat row.mos with
    | none => rw [hp] at h; cases h
    | some rating =>
      rw [hp] at h
      rw [ih h]
      simp [rowBindings, rowBinding, hp, List.append_assoc]

lemma insertRows_ok_of (sn : String) (rows : List CsvRow) (m0 : SplitMap)
    (h : ∀ row ∈ rows, (pyFloat row.mos).isSome) :
    insertRows sn rows m0 = .ok (m0 ++ rowBindings (rows.map fun r => (sn, r))) := by
  induction rows generalizing m0 with
  | nil => simp [insertRows, rowBindings]
  | cons row rest ih =>
    cases hp : pyFloat row.mos with
    | none =>
      have := h row (List.mem_cons_self row rest)
      rw [hp] at this
      cases this
    | some rating =>
      simp only [insertRows, hp]
      rw [ih _ fun r hr => h r (List.mem_cons_of_mem _ hr)]
      simp [rowBindings, rowBinding, hp, List.append_assoc]

lemma insertRows_parses {sn : String} {rows : List CsvRow} {m0 m1 : SplitMap}
    (h : insertRows sn rows m0 = .ok m1) :
    ∀ row ∈ rows, (pyFloat row.mos).isSome := by
  induction rows generalizing m0 with
  | nil => intro row hr; cases hr
  | cons row rest ih =>
    simp only [insertRows] at h
    cases hp : pyFloat row.mos with
    | none => rw [hp] at h; cases h
    | some rating =>
      rw [hp] at h
      intro r hr
      rcases List.mem_cons.mp hr with rfl | hr
      · rw [hp]; rfl
      · exact ih h r hr

lemma readTable_none (sn : String) (m : SplitMap) :
    readTable sn none m = .error (.fileNotFound sn) := rfl

lemma readTable_ok {sn : String} {t? : Option CsvTable} {m0 m1 : SplitMap}
    (h : readTable sn t? m0 = .ok m1) :
    ∃ t, t? = some t ∧
      ("stimuli" ∈ t.fieldnames ∧ "mos" ∈ t.fieldnames) ∧
      (∀ row ∈ t.rows, (pyFloat row.mos).isSome) ∧
      m1 = m0 ++ rowBindings (t.rows.map fun r => (sn, r)) := by
  cases t? with
  | none => cases h
  | some t =>
    refine ⟨t, rfl, ?_⟩
    simp only [readTable] at h
    by_cases hs : "stimuli" ∈ t.fieldnames ∧ "mos" ∈ t.fieldnames
    · rw [if_pos hs] at h
      exact ⟨hs, insertRows_parses h, insertRows_ok h⟩
    · rw [if_neg hs] at h
      cases h

/-- The structure of a successful `read_split_tables` run: all three tables
are present and the result is exactly the sequence of insertions for the
tagged rows of `train`, then `val`, then `test`. -/
lemma read_split_tables_ok {d : SplitDir} {m : SplitMap}
    (h : read_split_tables d = .ok m) :
    ∃ t1 t2 t3, d.train = some t1 ∧ d.val = some t2 ∧ d.test = some t3 ∧
      (∀ p ∈ taggedRows t1 t2 t3, (pyFloat p.2.mos).isSome) ∧
      m = rowBindings (taggedRows t1 t2 t3) := by
  unfold read_split_tables at h
  split at h
  next e heq1 => cases h
  next ma heq1 =>
    split at h
    next e heq2 => cases h
    next mb heq2 =>
      obtain ⟨t1, hd1, _, hp1, hm1⟩ := readTable_ok heq1
      obtain ⟨t2, hd2, _, hp2, hm2⟩ := readTable_ok heq2
      obtain ⟨t3, hd3, _, hp3, hm3⟩ := readTable_ok h
      refine ⟨t1, t2, t3, hd1, hd2, hd3, ?_, ?_⟩
      · intro p hp
        simp only [taggedRows, List.mem_append, List.mem_map] at hp
        rcases hp with (⟨r, hr, rfl⟩ | ⟨r, hr, rfl⟩) | ⟨r, hr, rfl⟩
        · exact hp1 r hr
        · exact hp2 r hr
        · exact hp3 r hr
      · rw [hm3, hm2, hm1]
        simp [taggedRows, rowBindings, List.filterMap_append, List.append_assoc]

/-! ## Lemmas about `build_manifest` -/

lemma build_cons_skip {e : Entry} (h : ¬ e.isAudioFile = true)
    (sa : Bool) (rn : String) (rest : List Entry) (m : SplitMap) :
    build_manifest sa rn (e :: rest) m = build_manifest sa rn rest m := by
  simp [build_manifest, h]

lemma build_cons_warn {e : Entry} {m : SplitMap} (haud : e.isAudioFile = true)
    (hl : mapLookup m e.relPath = none)
    (sa : Bool) (rn : String) (rest : List Entry) :
    build_manifest sa rn (e :: rest) m =
      ⟨(build_manifest sa rn rest m).records,
       skipWarning e.relPath :: (build_manifest sa rn rest m).warnings,
       (build_manifest sa rn rest m).probed,
       (build_manifest sa rn rest m).error⟩ := by
  simp [build_manifest, haud, hl]

lemma build_cons_err {sa : Bool} {e : Entry} {m : SplitMap} {s : String}
    {ra : ℚ} {err : ProbeError}
    (haud : e.isAudioFile = true) (hl : mapLookup m e.relPath = some (s, ra))
    (hd : audio_duration_ms sa e.ext e.probe = .error err)
    (rn : String) (rest : List Entry) :
    build_manifest sa rn (e :: rest) m = ⟨[], [], [e.relPath], some err⟩ := by
  simp [build_manifest, haud, hl, hd]

lemma build_cons_ok {sa : Bool} {e : Entry} {m : SplitMap} {s : String}
    {ra dur : ℚ}
    (haud : e.isAudioFile = true) (hl : mapLookup m e.relPath = some (s, ra))
    (hd : audio_duration_ms sa e.ext e.probe = .ok dur)
    (rn : String) (rest : List Entry) :
    build_manifest sa rn (e :: rest) m =
      ⟨⟨e.relPath, e.speakerId rn, dur, s, ra⟩ ::
         (build_manifest sa rn rest m).records,
       (build_manifest sa rn rest m).warnings,
       e.relPath :: (build_manifest sa rn rest m).probed,
       (build_manifest sa rn rest m).error⟩ := by
  simp [build_manifest, haud, hl, hd]

/-- Provenance of every observable of a `build_manifest` run: each record
comes from an enumerated audio file that the mapping matched and the probe
measured; each probed path comes from a matched audio file; each warning
comes from an unmatched audio file. -/
lemma build_provenance (sa : Bool) (rn : String) (entries : List Entry)
    (m : SplitMap) :
    (∀ r ∈ (build_manifest sa rn entries m).records,
      ∃ e ∈ entries, e.isAudioFile = true ∧
        ∃ s ra dur, mapLookup m e.relPath = some (s, ra) ∧
          audio_duration_ms sa e.ext e.probe = .ok dur ∧
          r = ⟨e.relPath, e.speakerId rn, dur, s, ra⟩) ∧
    (∀ p ∈ (build_manifest sa rn entries m).probed,
      ∃ e ∈ entries, e.isAudioFile = true ∧ p = e.relPath ∧
        (mapLookup m e.relPath).isSome) ∧
    (∀ w ∈ (build_manifest sa rn entries m).warnings,
      ∃ e ∈ entries, e.isAudioFile = true ∧ mapLookup m e.relPath = none ∧
        w = skipWarning e.relPath) := by
  induction entries with
  | nil => simp [build_manifest]
  | cons e rest ih =>
    obtain ⟨ihr, ihp, ihw⟩ := ih
    by_cases haud : e.isAudioFile = true
    · cases hl : mapLookup m e.relPath with
      | none =>
        rw [build_cons_warn haud hl]
        refine ⟨?_, ?_, ?_⟩
        · intro r hr
          obtain ⟨e', he', hrest⟩ := ihr r hr
          exact ⟨e', List.mem_cons_of_mem _ he', hrest⟩
        · intro p hp
          obtain ⟨e', he', hrest⟩ := ihp p hp
          exact ⟨e', List.mem_cons_of_mem _ he', hrest⟩
        · intro w hw
          rcases List.mem_cons.mp hw with rfl | hw
          · exact ⟨e, List.mem_cons_self e rest, haud, hl, rfl⟩
          · obtain ⟨e', he', hrest⟩ := ihw w hw
            exact ⟨e', List.mem_cons_of_mem _ he', hrest⟩
      | some v =>
        obtain ⟨s, ra⟩ := v
        cases hd : audio_duration_ms sa e.ext e.probe with
        | error err =>
          rw [build_cons_err haud hl hd]
          refine ⟨?_, ?_, ?_⟩
          · intro r hr; cases hr
          · intro p hp
            rcases List.mem_cons.mp hp with rfl | hp
            · exact ⟨e, List.mem_cons_self e rest, haud, rfl, by rw [hl]; rfl⟩
            · cases hp
          · intro w hw; cases hw
        | ok dur =>
          rw [build_cons_ok haud hl hd]
          refine ⟨?_, ?_, ?_⟩
          · intro r hr
            rcases List.mem_cons.mp hr with rfl | hr
            · exact ⟨e, List.mem_cons_self e rest, haud, s, ra, dur, hl, hd, rfl⟩
            · obtain ⟨e', he', hrest⟩ := ihr r hr
              exact ⟨e', List.mem_cons_of_mem _ he', hrest⟩
          · intro p hp
            rcases List.mem_cons.mp hp with rfl | hp
            · exact ⟨e, List.mem_cons_self e rest, haud, rfl, by rw [hl]; rfl⟩
            · obtain ⟨e', he', hrest⟩ := ihp p hp
              exact ⟨e', List.mem_cons_of_mem _ he', hrest⟩
          · intro w hw
            obtain ⟨e', he', hrest⟩ := ihw w hw
            exact ⟨e', List.mem_cons_of_mem _ he', hrest⟩
    · rw [build_cons_skip haud]
      refine ⟨?_, ?_, ?_⟩
      · intro r hr
        obtain ⟨e', he', hrest⟩ := ihr r hr
        exact ⟨e', List.mem_cons_of_mem _ he', hrest⟩
      · intro p hp
        obtain ⟨e', he', hrest⟩ := ihp p hp
        exact ⟨e', List.mem_cons_of_mem _ he', hrest⟩
      · intro w hw
        obtain ⟨e', he', hrest⟩ := ihw w hw
        exact ⟨e', List.mem_cons_of_mem _ he', hrest⟩

/-- Splitting a `build_manifest` run: if the first part fails, the run is
exactly the first part's run; otherwise the observables concatenate and the
final error status is the second part's. -/
lemma build_manifest_append (sa : Bool) (rn : String) (xs ys : List Entry)
    (m : SplitMap) :
    build_manifest sa rn (xs ++ ys) m =
      match (build_manifest sa rn xs m).error with
      | some _ => build_manifest sa rn xs m
      | none =>
        ⟨(build_manifest sa rn xs m).records ++ (build_manifest sa rn ys m).records,
         (build_manifest sa rn xs m).warnings ++ (build_manifest sa rn ys m).warnings,
         (build_manifest sa rn xs m).probed ++ (build_manifest sa rn ys m).probed,
         (build_manifest sa rn ys m).error⟩ := by
  induction xs with
  | nil => simp [build_manifest]
  | cons e rest ih =>
    by_cases haud : e.isAudioFile = true
    · cases hl : mapLookup m e.relPath with
      | none =>
        rw [List.cons_append, build_cons_warn haud hl, build_cons_warn haud hl, ih]
        cases herr : (build_manifest sa rn rest m).error <;> simp [herr]
      | some v =>
        obtain ⟨s, ra⟩ := v
        cases hd : audio_duration_ms sa e.ext e.probe with
        | error err =>
          rw [List.cons_append, build_cons_err haud hl hd,
            build_cons_err haud hl hd]
        | ok dur =>
          rw [List.cons_append, build_cons_ok haud hl hd,
            build_cons_ok haud hl hd, ih]
          cases herr : (build_manifest sa rn rest m).error <;> simp [herr]
    · rw [List.cons_append, build_cons_skip haud, build_cons_skip haud, ih]

lemma mapLookup_cons (b : String × String × ℚ) (rest : SplitMap) (k : String) :
    mapLookup (b :: rest) k =
      match mapLookup rest k with
      | some w => some w
      | none => if b.1 = k then some b.2 else none := by
  show List.foldl _ (if b.1 = k then some b.2 else none) rest = _
  exact mapLookup_foldl rest k _

lemma rowBindings_append (a b : List (String × CsvRow)) :
    rowBindings (a ++ b) = rowBindings a ++ rowBindings b := by
  simp [rowBindings, List.filterMap_append]

/-- The data rows of every table present in the split directory, in
processing order. -/
def rowsOf : Option CsvTable → List CsvRow
  | none => []
  | some t => t.rows

/-- All data rows the reader would process for a split directory. -/
def allRows (d : SplitDir) : List CsvRow :=
  rowsOf d.train ++ rowsOf d.val ++ rowsOf d.test

/-- A parsed `mos` cell lies in the MOS range 1–5 (vacuous when the cell
does not parse). -/
def ratingInRange : Option ℚ → Prop
  | none => True
  | some r => 1 ≤ r ∧ r ≤ 5

instance (o : Option ℚ) : Decidable (ratingInRange o) := by
  cases o with
  | none => exact isTrue trivial
  | some r => exact inferInstanceAs (Decidable (1 ≤ r ∧ r ≤ 5))

/-- A table whose processing raises no exception: the header has both
required columns and every `mos` cell parses. -/
def tableOk (t : CsvTable) : Prop :=
  ("stimuli" ∈ t.fieldnames ∧ "mos" ∈ t.fieldnames) ∧
    ∀ row ∈ t.rows, (pyFloat row.mos).isSome

instance (t : CsvTable) : Decidable (tableOk t) := by
  unfold tableOk
  infer_instance

/-- `tableOk` lifted to a possibly-absent table. -/
def tableOkOpt : Option CsvTable → Prop
  | none => True
  | some t => tableOk t

instance (t? : Option CsvTable) : Decidable (tableOkOpt t?) := by
  cases t? with
  | none => exact isTrue trivial
  | some t => exact inferInstanceAs (Decidable (tableOk t))

lemma readTable_ok_of {t : CsvTable} (sn : String) (m0 : SplitMap)
    (h : tableOk t) :
    readTable sn (some t) m0 =
      .ok (m0 ++ rowBindings (t.rows.map fun r => (sn, r))) := by
  simp only [readTable]
  rw [if_pos h.1]
  exact insertRows_ok_of sn t.rows m0 h.2

/-! ## Claim theorems -/

/-- C5: for a file whose extension is `.wav` (case-insensitive),
`audio_duration_ms` returns (frame-count × 1000) / sample-rate, read from
the WAV header; in particular a header of 16000 frames at 16000 Hz gives
exactly 1000.0 (see the witness). -/
theorem C5_wav_duration (sa : Bool) (suffix : String) (frames sr : ℕ)
    (hw : pyLower suffix = ".wav") (hsr : sr ≠ 0) :
    audio_duration_ms sa suffix (.header frames sr) =
      .ok ((frames * 1000 : ℚ) / sr) := by
  unfold audio_duration_ms
  rw [if_pos hw]
  simp only [hsr, if_false, Rat.mkRat_eq_div, Except.ok.injEq]
  push_cast
  ring_nf

/-- C5 witness: a `.wav` header reporting 16000 frames at 16000 Hz yields
exactly 1000.0 milliseconds. -/
theorem C5_wav_duration_witness :
    audio_duration_ms true ".wav" (.header 16000 16000) = .ok 1000 := by
  rw [C5_wav_duration true ".wav" 16000 16000 (by decide) (by decide)]
  norm_num

/-- C9: for a non-`.wav` file with the fallback decoder library
(`soundfile`) unavailable, `audio_duration_ms` fails with the
`UnsupportedFormatError` (the `RuntimeError` of line 56) whose message
names the missing dependency (`pip install soundfile`) and suggests
conversion to WAV. -/
theorem C9_soundfile_missing (suffix : String) (outcome : ProbeOutcome)
    (h : ¬ pyLower suffix = ".wav") :
    audio_duration_ms false suffix outcome =
      .error (.unsupportedFormat (unsupportedMsg suffix)) ∧
    strContains (unsupportedMsg suffix) "soundfile" ∧
    strContains (unsupportedMsg suffix) "pip install soundfile" ∧
    strContains (unsupportedMsg suffix) "convert to WAV" := by
  refine ⟨?_, ?_, ?_, ?_⟩
  · unfold audio_duration_ms
    rw [if_neg h]
    rfl
  · exact ⟨"Cannot read " ++ suffix ++ "; install `pip install ",
      "` or convert to WAV.",
      by simp only [unsupportedMsg, unsupportedTail, String.append_assoc]; rfl⟩
  · exact ⟨"Cannot read " ++ suffix ++ "; install `",
      "` or convert to WAV.",
      by simp only [unsupportedMsg, unsupportedTail, String.append_assoc]; rfl⟩
  · exact ⟨"Cannot read " ++ suffix ++ "; install `pip install soundfile` or ",
      ".",
      by simp only [unsupportedMsg, unsupportedTail, String.append_assoc]; rfl⟩

/-- C9 witness: probing a `.flac` file without `soundfile` installed fails
with the `UnsupportedFormatError` naming the dependency. -/
theorem C9_soundfile_missing_witness :
    audio_duration_ms false ".flac" (.header 100 16000) =
      .error (.unsupportedFormat (unsupportedMsg ".flac")) :=
  (C9_soundfile_missing ".flac" (.header 100 16000) (by decide)).1

/-- C10: for a `.wav` file whose header reports a zero sample rate,
`audio_duration_ms` does not return a value: the division raises
(`ZeroDivisionError`), so a returned duration presupposes a nonzero
sample rate. -/
theorem C10_zero_sample_rate (sa : Bool) (suffix : String) (frames : ℕ)
    (hw : pyLower suffix = ".wav") :
    audio_duration_ms sa suffix (.header frames 0) = .error .zeroDivision ∧
    ∀ q : ℚ, audio_duration_ms sa suffix (.header frames 0) ≠ .ok q := by
  have h1 : audio_duration_ms sa suffix (.header frames 0) =
      .error .zeroDivision := by
    unfold audio_duration_ms
    rw [if_pos hw]
    rfl
  exact ⟨h1, fun q hq => by rw [h1] at hq; cases hq⟩

/-- C10 witness: a `.wav` header of 16000 frames at 0 Hz raises instead of
returning a duration. -/
theorem C10_zero_sample_rate_witness :
    audio_duration_ms true ".wav" (.header 16000 0) = .error .zeroDivision :=
  (C10_zero_sample_rate true ".wav" 16000 (by decide)).1

/-- A split directory whose `train.csv` carries a `mos` of 6.0 — outside
the documented MOS range — with well-formed headers throughout. -/
def outOfRangeDir : SplitDir :=
  ⟨some ⟨["stimuli", "mos"], [⟨"a.wav", "6.0"⟩]⟩,
   some ⟨["stimuli", "mos"], []⟩,
   some ⟨["stimuli", "mos"], []⟩⟩

/-- C1 counterexample: `read_split_tables` accepts a set of three tables
whose `train.csv` has `mos = 6.0` and stores the rating 6 for key `a.wav` —
an entry outside the range 1.0–5.0, refuting the claim that every stored
entry is in that range for every accepted input. -/
theorem C1_range_counterexample :
    read_split_tables outOfRangeDir = .ok [("a.wav", "train", 6)] ∧
    mapLookup [("a.wav", "train", 6)] "a.wav" = some ("train", 6) ∧
    ¬ ((1 : ℚ) ≤ 6 ∧ (6 : ℚ) ≤ 5) :=
  ⟨by decide, by decide, by decide⟩

/-- C1 (amended): the reader performs no range validation — it stores the
parsed `mos` values as they are.  Every entry of the returned lookup lies
in 1.0–5.0 under the precondition that every `mos` cell of the accepted
tables parses into that range. -/
theorem C1_range_amended (d : SplitDir) (m : SplitMap)
    (hok : read_split_tables d = .ok m)
    (hrange : ∀ row ∈ allRows d, ratingInRange (pyFloat row.mos)) :
    ∀ k s r, mapLookup m k = some (s, r) → 1 ≤ r ∧ r ≤ 5 := by
  obtain ⟨t1, t2, t3, hd1, hd2, hd3, _, hm⟩ := read_split_tables_ok hok
  intro k s r hlk
  have hmem : (k, s, r) ∈ m := mapLookup_mem hlk
  rw [hm] at hmem
  simp only [rowBindings, List.mem_filterMap] at hmem
  obtain ⟨p, hp, hb⟩ := hmem
  simp only [rowBinding, Option.map_eq_some'] at hb
  obtain ⟨r', hr', heq⟩ := hb
  have hrr : r' = r := congrArg (fun q => q.2.2) heq
  subst hrr
  have hmemrow : p.2 ∈ allRows d := by
    simp only [taggedRows, List.mem_append, List.mem_map] at hp
    simp only [allRows, rowsOf, hd1, hd2, hd3, List.mem_append]
    rcases hp with (⟨row, hrow, rfl⟩ | ⟨row, hrow, rfl⟩) | ⟨row, hrow, rfl⟩
    · exact Or.inl (Or.inl hrow)
    · exact Or.inl (Or.inr hrow)
    · exact Or.inr hrow
  have := hrange p.2 hmemrow
  rw [hr'] at this
  exact this

/-- A well-formed split directory whose single rating 4.5 is in range. -/
def inRangeDir : SplitDir :=
  ⟨some ⟨["stimuli", "mos"], [⟨"a.wav", "4.5"⟩]⟩,
   some ⟨["stimuli", "mos"], []⟩,
   some ⟨["stimuli", "mos"], []⟩⟩

/-- C1 (amended) witness: on a directory whose only rating is 4.5, the
stored entry is in range. -/
theorem C1_range_amended_witness : (1 : ℚ) ≤ mkRat 9 2 ∧ mkRat 9 2 ≤ 5 :=
  C1_range_amended inRangeDir [("a.wav", "train", mkRat 9 2)]
    (by decide) (by decide) "a.wav" "train" (mkRat 9 2) (by decide)

/-- C4: last write wins.  If the tagged row sequence (tables processed in
the order train, val, test) contains an earlier row `rowA` and a later row
`rowB` that normalize to the same key `k`, and `rowB` is the last row with
that key, then the accepted run's returned mapping holds `rowB`'s
(split, rating) pair at `k` — the later insertion silently replaced the
earlier one (and the run succeeded: no uniqueness check, and the reader
prints nothing). -/
theorem C4_last_write_wins (d : SplitDir) (m : SplitMap)
    (t1 t2 t3 : CsvTable) (pre mid post : List (String × CsvRow))
    (snA snB : String) (rowA rowB : CsvRow) (k : String) (rB : ℚ)
    (hok : read_split_tables d = .ok m)
    (hd1 : d.train = some t1) (hd2 : d.val = some t2) (hd3 : d.test = some t3)
    (hsplit : taggedRows t1 t2 t3 =
      pre ++ (snA, rowA) :: mid ++ (snB, rowB) :: post)
    (hkA : rowKey rowA = k) (hkB : rowKey rowB = k)
    (hpost : ∀ p ∈ post, rowKey p.2 ≠ k)
    (hparseB : pyFloat rowB.mos = some rB) :
    mapLookup m k = some (snB, rB) := by
  obtain ⟨t1', t2', t3', hd1', hd2', hd3', _, hm⟩ := read_split_tables_ok hok
  rw [hd1] at hd1'; cases hd1'
  rw [hd2] at hd2'; cases hd2'
  rw [hd3] at hd3'; cases hd3'
  have hpost' : mapLookup (rowBindings post) k = none := by
    apply mapLookup_eq_none
    intro q hq
    simp only [rowBindings, List.mem_filterMap] at hq
    obtain ⟨p, hp, hb⟩ := hq
    simp only [rowBinding, Option.map_eq_some'] at hb
    obtain ⟨r', _, heq⟩ := hb
    have hq1 : q.1 = rowKey p.2 := by rw [← heq]
    rw [hq1]
    exact hpost p hp
  have hTail : mapLookup (rowBindings ((snB, rowB) :: post)) k =
      some (snB, rB) := by
    have hcons : rowBindings ((snB, rowB) :: post) =
        (rowKey rowB, snB, rB) :: rowBindings post := by
      simp [rowBindings, List.filterMap_cons, rowBinding, hparseB]
    rw [hcons, mapLookup_cons, hpost', hkB]
    simp
  have hassoc : pre ++ (snA, rowA) :: mid ++ (snB, rowB) :: post =
      (pre ++ (snA, rowA) :: mid) ++ ((snB, rowB) :: post) := by
    simp
  rw [hm, hsplit, hassoc, rowBindings_append, mapLookup_append, hTail]

/-- A split directory in which the key `a.wav` appears in both `train.csv`
(rating 2.0) and `test.csv` (rating 4.5). -/
def dupKeyDir : SplitDir :=
  ⟨some ⟨["stimuli", "mos"], [⟨"a.wav", "2.0"⟩]⟩,
   some ⟨["stimuli", "mos"], []⟩,
   some ⟨["stimuli", "mos"], [⟨"a.wav", "4.5"⟩]⟩⟩

/-- C4 witness: with `a.wav` in both `train.csv` (2.0) and `test.csv`
(4.5), the accepted run's mapping holds the later table's pair
`("test", 4.5)`. -/
theorem C4_last_write_wins_witness :
    mapLookup [("a.wav", "train", 2), ("a.wav", "test", mkRat 9 2)] "a.wav" =
      some ("test", mkRat 9 2) :=
  C4_last_write_wins dupKeyDir
    [("a.wav", "train", 2), ("a.wav", "test", mkRat 9 2)]
    ⟨["stimuli", "mos"], [⟨"a.wav", "2.0"⟩]⟩
    ⟨["stimuli", "mos"], []⟩
    ⟨["stimuli", "mos"], [⟨"a.wav", "4.5"⟩]⟩
    [] [] [] "train" "test" ⟨"a.wav", "2.0"⟩ ⟨"a.wav", "4.5"⟩ "a.wav"
    (mkRat 9 2)
    (by decide) rfl rfl rfl (by decide) (by decide) (by decide)
    (by intro p hp; cases hp) (by decide)

/-- C2: if any of `train.csv`, `val.csv`, `test.csv` is absent (and the
tables that are present are well-formed, so that no earlier exception
preempts the check), the run fails with the `MissingFileError`
(`FileNotFoundError`, line 69) and `main` aborts with the output path
untouched — `read_split_tables` is called before the output file is
opened, so its previous content, if any, is unchanged. -/
theorem C2_missing_table_aborts (inp : RunInput)
    (habs : inp.split_dir.train = none ∨ inp.split_dir.val = none ∨
      inp.split_dir.test = none)
    (hwf : tableOkOpt inp.split_dir.train ∧ tableOkOpt inp.split_dir.val ∧
      tableOkOpt inp.split_dir.test) :
    (∃ sn, read_split_tables inp.split_dir = .error (.fileNotFound sn)) ∧
    main inp = ⟨.prev, false, none⟩ := by
  obtain ⟨hta, htv, htt⟩ := hwf
  have herr : ∃ sn, read_split_tables inp.split_dir =
      .error (.fileNotFound sn) := by
    cases htr : inp.split_dir.train with
    | none =>
      refine ⟨"train", ?_⟩
      unfold read_split_tables
      rw [htr]
      rfl
    | some t1 =>
      rw [htr] at hta
      have h1 : readTable "train" (some t1) [] =
          .ok ([] ++ rowBindings (t1.rows.map fun r => ("train", r))) :=
        readTable_ok_of "train" [] hta
      cases hv : inp.split_dir.val with
      | none =>
        refine ⟨"val", ?_⟩
        unfold read_split_tables
        rw [htr]
        simp only [h1]
        rw [hv]
        rfl
      | some t2 =>
        rw [hv] at htv
        have h2 : readTable "val" (some t2)
            ([] ++ rowBindings (t1.rows.map fun r => ("train", r))) =
            .ok (([] ++ rowBindings (t1.rows.map fun r => ("train", r))) ++
              rowBindings (t2.rows.map fun r => ("val", r))) :=
          readTable_ok_of "val" _ htv
        cases ht : inp.split_dir.test with
        | none =>
          refine ⟨"test", ?_⟩
          unfold read_split_tables
          rw [htr]
          simp only [h1]
          rw [hv]
          simp only [h2]
          rw [ht]
          rfl
        | some t3 =>
          rcases habs with h | h | h
          · rw [htr] at h; cases h
          · rw [hv] at h; cases h
          · rw [ht] at h; cases h
  obtain ⟨sn, he⟩ := herr
  refine ⟨⟨sn, he⟩, ?_⟩
  unfold main
  rw [he]

/-- A run input whose `test.csv` is absent; the other two tables are
well-formed, and the output path previously existed. -/
def missingTestInput : RunInput :=
  ⟨⟨some ⟨["stimuli", "mos"], [⟨"a.wav", "2.0"⟩]⟩,
    some ⟨["stimuli", "mos"], []⟩, none⟩,
   "root", [⟨["a.wav"], true, .header 16000 16000⟩], true⟩

/-- C2 witness: with `test.csv` absent, the run fails with the
`MissingFileError` and the output path is untouched. -/
theorem C2_missing_table_aborts_witness :
    (∃ sn, read_split_tables missingTestInput.split_dir =
      .error (.fileNotFound sn)) ∧
    main missingTestInput = ⟨.prev, false, none⟩ :=
  C2_missing_table_aborts missingTestInput (Or.inr (Or.inr rfl))
    ⟨by decide, by decide, trivial⟩

/-- C3: every record `build_manifest` emits has a `file_path` that is a key
of the split lookup of the same run; and an enumerated audio file whose
normalized relative path is absent from the lookup yields zero records and
exactly one stderr warning, and does not abort the run (the run's final
error status is whatever the remaining entries produce). -/
theorem C3_join_invariant (sa : Bool) (rn : String)
    (entries pre post : List Entry) (m : SplitMap) (e : Entry)
    (hpre : (build_manifest sa rn pre m).error = none)
    (haud : e.isAudioFile = true)
    (hmiss : mapLookup m e.relPath = none) :
    (∀ r ∈ (build_manifest sa rn entries m).records,
      (mapLookup m r.file_path).isSome) ∧
    build_manifest sa rn (pre ++ e :: post) m =
      ⟨(build_manifest sa rn pre m).records ++
         (build_manifest sa rn post m).records,
       (build_manifest sa rn pre m).warnings ++ skipWarning e.relPath ::
         (build_manifest sa rn post m).warnings,
       (build_manifest sa rn pre m).probed ++
         (build_manifest sa rn post m).probed,
       (build_manifest sa rn post m).error⟩ := by
  constructor
  · intro r hr
    obtain ⟨e', _, _, s, ra, dur, hl, _, hrec⟩ :=
      (build_provenance sa rn entries m).1 r hr
    rw [hrec]
    show (mapLookup m e'.relPath).isSome
    rw [hl]
    rfl
  · rw [build_manifest_append, build_cons_warn haud hmiss, hpre]

/-- An audio file entry matching no split-table key. -/
def unmatchedEntry : Entry := ⟨["x.wav"], true, .header 16000 16000⟩

/-- C3 witness: a run over a single audio file absent from the (empty)
lookup emits zero records, one warning, and no error. -/
theorem C3_join_invariant_witness :
    build_manifest true "root" [unmatchedEntry] [] =
      ⟨[], [skipWarning "x.wav"], [], none⟩ := by
  have h := (C3_join_invariant true "root" [] [] [] [] unmatchedEntry
    rfl (by decide) (by decide)).2
  exact h

/-- C6: every observable of a `build_manifest` run — each emitted record,
each path handed to the duration probe, and each warning — originates from
an enumerated entry that is a regular file whose lower-cased extension is
in `AUDIO_EXTS`; a file with any other extension is never probed, emitted,
or warned about. -/
theorem C6_extension_filter (sa : Bool) (rn : String) (entries : List Entry)
    (m : SplitMap) :
    (∀ r ∈ (build_manifest sa rn entries m).records,
      ∃ e ∈ entries, e.isFile = true ∧ AUDIO_EXTS.contains e.ext = true ∧
        r.file_path = e.relPath) ∧
    (∀ p ∈ (build_manifest sa rn entries m).probed,
      ∃ e ∈ entries, e.isFile = true ∧ AUDIO_EXTS.contains e.ext = true ∧
        p = e.relPath) ∧
    (∀ w ∈ (build_manifest sa rn entries m).warnings,
      ∃ e ∈ entries, e.isFile = true ∧ AUDIO_EXTS.contains e.ext = true ∧
        w = skipWarning e.relPath) := by
  obtain ⟨hr, hp, hw⟩ := build_provenance sa rn entries m
  refine ⟨?_, ?_, ?_⟩
  · intro r hmem
    obtain ⟨e, he, haud, s, ra, dur, _, _, hrec⟩ := hr r hmem
    obtain ⟨hext, hfile⟩ := Bool.and_eq_true_iff.mp haud
    exact ⟨e, he, hfile, hext, by rw [hrec]⟩
  · intro p hmem
    obtain ⟨e, he, haud, hpe, _⟩ := hp p hmem
    obtain ⟨hext, hfile⟩ := Bool.and_eq_true_iff.mp haud
    exact ⟨e, he, hfile, hext, hpe⟩
  · intro w hmem
    obtain ⟨e, he, haud, _, hwe⟩ := hw w hmem
    obtain ⟨hext, hfile⟩ := Bool.and_eq_true_iff.mp haud
    exact ⟨e, he, hfile, hext, hwe⟩

/-- A matched `.wav` entry and a non-audio `.txt` entry under the root. -/
def wavEntry : Entry := ⟨["spk", "a.wav"], true, .header 16000 16000⟩

/-- A text file in the tree: not an audio extension. -/
def txtEntry : Entry := ⟨["spk", "notes.txt"], true, .header 1 1⟩

/-- The record the run over `wavEntry` emits. -/
def wavRecord : ManifestRecord :=
  ⟨"spk/a.wav", "spk", 1000, "train", mkRat 9 2⟩

/-- C6 witness: in a run over a `.wav` and a `.txt` file, the single
emitted record originates from an enumerated audio-extension file. -/
theorem C6_extension_filter_witness :
    ∃ e ∈ [wavEntry, txtEntry], e.isFile = true ∧
      AUDIO_EXTS.contains e.ext = true ∧ wavRecord.file_path = e.relPath :=
  (C6_extension_filter true "root" [wavEntry, txtEntry]
    [("spk/a.wav", "train", mkRat 9 2)]).1 wavRecord (by decide)

/-- C7: every record a run emits has `file_path` equal to the source
file's path relative to the root, joined with `/` and with backslashes
replaced by forward slashes. -/
theorem C7_relpath_roundtrip (sa : Bool) (rn : String) (entries : List Entry)
    (m : SplitMap) :
    ∀ r ∈ (build_manifest sa rn entries m).records,
      ∃ e ∈ entries, e.isFile = true ∧
        r.file_path = normSlashes (String.intercalate "/" e.relSegs) := by
  intro r hmem
  obtain ⟨e, he, haud, s, ra, dur, _, _, hrec⟩ :=
    (build_provenance sa rn entries m).1 r hmem
  obtain ⟨_, hfile⟩ := Bool.and_eq_true_iff.mp haud
  refine ⟨e, he, hfile, ?_⟩
  rw [hrec]
  rfl

/-- An audio file whose directory name contains a backslash. -/
def backslashEntry : Entry := ⟨["sp\\k", "b.wav"], true, .header 16000 16000⟩

/-- The record the run over `backslashEntry` emits: the backslash in the
relative path is normalized to a forward slash. -/
def backslashRecord : ManifestRecord :=
  ⟨"sp/k/b.wav", "sp\\k", 1000, "val", 3⟩

/-- C7 witness: the emitted record's `file_path` is the slash-normalized
relative path of its source file. -/
theorem C7_relpath_roundtrip_witness :
    ∃ e ∈ [backslashEntry], e.isFile = true ∧
      backslashRecord.file_path =
        normSlashes (String.intercalate "/" e.relSegs) :=
  C7_relpath_roundtrip true "root" [backslashEntry]
    [("sp/k/b.wav", "val", 3)] backslashRecord (by decide)

/-- C8: if `audio_duration_ms` fails on an enumerated-and-matched file,
the failure escapes `build_manifest` unhandled — entries after the failing
file contribute nothing, the failing file yields no record — and `main`
aborts the run with a nonzero exit: only the records yielded before the
failure were written, and no completion message is printed. -/
theorem C8_probe_failure_aborts (inp : RunInput) (m : SplitMap)
    (pre post : List Entry) (e : Entry) (s : String) (ra : ℚ)
    (err : ProbeError)
    (hread : read_split_tables inp.split_dir = .ok m)
    (hentries : inp.entries = pre ++ e :: post)
    (hpre : (build_manifest inp.soundfileAvailable inp.rootName pre m).error =
      none)
    (haud : e.isAudioFile = true)
    (hmatch : mapLookup m e.relPath = some (s, ra))
    (hfail : audio_duration_ms inp.soundfileAvailable e.ext e.probe =
      .error err) :
    build_manifest inp.soundfileAvailable inp.rootName inp.entries m =
      ⟨(build_manifest inp.soundfileAvailable inp.rootName pre m).records,
       (build_manifest inp.soundfileAvailable inp.rootName pre m).warnings,
       (build_manifest inp.soundfileAvailable inp.rootName pre m).probed ++
         [e.relPath],
       some err⟩ ∧
    main inp =
      ⟨.written (build_manifest inp.soundfileAvailable inp.rootName pre
         m).records, false, none⟩ := by
  have hb : build_manifest inp.soundfileAvailable inp.rootName inp.entries m =
      ⟨(build_manifest inp.soundfileAvailable inp.rootName pre m).records,
       (build_manifest inp.soundfileAvailable inp.rootName pre m).warnings,
       (build_manifest inp.soundfileAvailable inp.rootName pre m).probed ++
         [e.relPath],
       some err⟩ := by
    rw [hentries, build_manifest_append, build_cons_err haud hmatch hfail,
      hpre]
    simp
  refine ⟨hb, ?_⟩
  unfold main
  rw [hread]
  simp only [hb]

/-- A run input with a matched `.wav` file whose header reports a zero
sample rate, so its duration probe raises. -/
def zeroRateInput : RunInput :=
  ⟨⟨some ⟨["stimuli", "mos"], [⟨"x.wav", "2.0"⟩]⟩,
    some ⟨["stimuli", "mos"], []⟩,
    some ⟨["stimuli", "mos"], []⟩⟩,
   "root", [⟨["x.wav"], true, .header 100 0⟩], true⟩

/-- C8 witness: one matched file whose probe raises — the run emits no
records and `main` exits with failure. -/
theorem C8_probe_failure_aborts_witness :
    main zeroRateInput = ⟨.written [], false, none⟩ :=
  (C8_probe_failure_aborts zeroRateInput [("x.wav", "train", 2)] [] []
    ⟨["x.wav"], true, .header 100 0⟩ "train" 2 .zeroDivision
    (by decide) rfl rfl (by decide) (by decide) (by decide)).2

end ExtractDatasetMetadata
